import Mathlib

/-!
Verification of the flat-backup engine (src/backup.py) against its
specification.  The Python source is shallowly embedded: every network
interaction is represented by an explicit environment function mapping a
request to the response the remote would give, and the while-loops of the
pager are given explicit fuel.  Errors raised by the Python code are
modelled with an explicit error type carried in `Except`.
-/

namespace FlatBackup

/-- Python-level exceptions that the embedded code can raise.
`httpError` stands for `requests.HTTPError` as raised by
`Response.raise_for_status` (carrying the status code); `runtimeError`
for `RuntimeError(msg)`; `keyError` for a dict lookup failure such as
`EXT[fmt]`; `indexError` for `scores[0]` on an empty list; `nameError`
for use of an undefined variable; `fuelExhausted` is a modelling
artifact marking that the fuel bound of a loop was reached (never hit
under the fuel hypotheses of the theorems below). -/
inductive PyErr where
  | httpError (status : Nat)
  | runtimeError (msg : String)
  | keyError (key : String)
  | indexError
  | nameError (name : String)
  | fuelExhausted
deriving Repr, DecidableEq

/-- `str(e)` for the exceptions above, as used by
`f"revisions: {e}"` in `main` (line 108).  For `RuntimeError` Python
prints exactly the message. -/
def pyMsg : PyErr → String
  | .httpError s => "HTTPError " ++ toString s
  | .runtimeError m => m
  | .keyError k => "KeyError: " ++ k
  | .indexError => "list index out of range"
  | .nameError n => "name " ++ n ++ " is not defined"
  | .fuelExhausted => "fuel exhausted"

/-- A raised exception short-circuits the rest of a computation. -/
@[simp] theorem except_error_bind {α β : Type} (e : PyErr) (f : α → Except PyErr β) :
    (Except.error e >>= f) = Except.error e := rfl

/-- A normally returned value feeds the rest of a computation. -/
@[simp] theorem except_ok_bind {α β : Type} (a : α) (f : α → Except PyErr β) :
    (Except.ok a >>= f) = f a := rfl

/-- The pure form of the same reduction. -/
@[simp] theorem except_pure_bind {α β : Type} (a : α) (f : α → Except PyErr β) :
    (Except.pure a >>= f) = f a := rfl

/-- One HTTP response to a listing request: the status code and the
decoded JSON body (a list of items). -/
structure Page (α : Type) where
  status : Nat
  body : List α
deriving Repr

/-- Why a paged iteration stopped normally: a 403 on some page
(line 27 of backup.py) or an empty page body (line 30). -/
inductive StopReason where
  | forbidden
  | empty
deriving Repr, DecidableEq

/-- Outcome of running the `paged` generator to completion. -/
inductive PagedOutcome where
  | stopped (reason : StopReason)
  | raised (status : Nat)
  | fuelOut
deriving Repr, DecidableEq

/-- Result of draining the `paged` generator: the yielded items in
order, the number of HTTP requests issued, and how the loop ended. -/
structure PagedResult (α : Type) where
  items : List α
  calls : Nat
  outcome : PagedOutcome
deriving Repr

/-- `paged(session, url, params)` (backup.py lines 21-32), started at
page number `page`, with `fuel` bounding the number of iterations.
Per iteration: issue one request; on status 403 return silently; then
`ok(r)` raises `requests.HTTPError` for any status of at least 400;
an empty body breaks the loop; otherwise every item is yielded and the
next page is fetched. -/
def pagedFrom (pages : Nat → Page α) : Nat → Nat → PagedResult α
  | 0, _ => ⟨[], 0, .fuelOut⟩
  | fuel+1, page =>
    let r := pages page
    if r.status = 403 then ⟨[], 1, .stopped .forbidden⟩
    else if 400 ≤ r.status then ⟨[], 1, .raised r.status⟩
    else if r.body.isEmpty then ⟨[], 1, .stopped .empty⟩
    else
      let rest := pagedFrom pages fuel (page+1)
      ⟨r.body ++ rest.items, rest.calls + 1, rest.outcome⟩

/-- `paged` drained from its initial state: the page counter starts
at 1 (line 22). -/
def paged (pages : Nat → Page α) (fuel : Nat) : PagedResult α :=
  pagedFrom pages fuel 1

/-- Draining a `paged` generator inside a caller: the caller receives
all yielded items, or the exception if the generator raised mid-way
(the partially consumed items are discarded together with the local
state of the caller, because the exception propagates out of it). -/
def pagedE (pages : Nat → Page α) (fuel : Nat) : Except PyErr (List α) :=
  let r := paged pages fuel
  match r.outcome with
  | .stopped _ => .ok r.items
  | .raised s => .error (.httpError s)
  | .fuelOut => .error .fuelExhausted

/-- A score item as consumed by `list_scores`: the mandatory `id`
(`s["id"]`) and the optional `title` (`s.get("title")`). -/
structure Score where
  id : String
  title : Option String
deriving Repr, DecidableEq

/-- The remote listing state seen by `list_scores`: responses of the
root-scores listing, of the collections listing (items are
`col.get("id")`), and of each per-collection scores listing. -/
structure DiscoveryEnv where
  rootPages : Nat → Page Score
  colPages : Nat → Page (Option String)
  colScorePages : String → Nat → Page Score

/-- The body of the dedup loops in `list_scores` (lines 38-39 and
46-47): skip an item whose id was already seen, otherwise record the
id and append `{"id": s["id"], "title": s.get("title")}`.  The `seen`
set is modelled as a list with membership. -/
def addNew (acc : List String × List Score) (s : Score) : List String × List Score :=
  if s.id ∈ acc.1 then acc else (s.id :: acc.1, acc.2 ++ [⟨s.id, s.title⟩])

/-- Feeding a whole yielded page sequence through the dedup loop. -/
def addScores (acc : List String × List Score) (items : List Score) :
    List String × List Score :=
  items.foldl addNew acc

/-- `if not cid: continue` (lines 42-44): a collection id of `None` or
`""` is falsy and the collection is skipped. -/
def truthyId : Option String → Option String
  | none => none
  | some cid => if cid = "" then none else some cid

/-- `list_scores(session)` (backup.py lines 34-48): walk the root
scores listing, then every visible collection, deduplicating by id.
Any exception raised by a pager propagates out. -/
def list_scores (env : DiscoveryEnv) (fuel : Nat) : Except PyErr (List Score) := do
  let root ← pagedE env.rootPages fuel
  let acc1 := addScores ([], []) root
  let cols ← pagedE env.colPages fuel
  let acc2 ← cols.foldlM (fun acc col =>
    match truthyId col with
    | none => pure acc
    | some cid => do
      let ss ← pagedE (env.colScorePages cid) fuel
      pure (addScores acc ss)) acc1
  pure acc2.2

/-- Modelled from the spec words for the CollectionWalker guarantee:
keep each discovered item at its first-seen position, dropping every
later occurrence of an id that is already in `seen`. -/
def firstSeenFrom (seen : List String) : List Score → List Score
  | [] => []
  | s :: rest =>
    if s.id ∈ seen then firstSeenFrom seen rest
    else ⟨s.id, s.title⟩ :: firstSeenFrom (s.id :: seen) rest

/-- The ids recorded as seen after scanning a list of items. -/
def seenAcc (seen : List String) : List Score → List String
  | [] => seen
  | s :: rest =>
    if s.id ∈ seen then seenAcc seen rest
    else seenAcc (s.id :: seen) rest

/-- A revision item as consumed by `latest_rev`: `id` and the optional
`creationDate` (`x.get("creationDate","")` defaults a missing date to
the empty string). -/
structure Rev where
  id : String
  creationDate : Option String
deriving Repr, DecidableEq

/-- The sort key of line 53: the creation date, with a missing date
read as `""`, the least string. -/
def revKey (x : Rev) : String := x.creationDate.getD ""

/-- Python compares strings lexicographically by code point, which is
exactly the lexicographic order of their character lists. -/
abbrev keyLt (a b : String) : Prop := a.data < b.data

/-- The reflexive closure of `keyLt`, again as the character-list
order. -/
abbrev keyLe (a b : String) : Prop := a.data ≤ b.data

/-- Stable descending insertion: place `x` before the first element
whose key is not strictly greater than the key of `x`. -/
def insertRev (x : Rev) : List Rev → List Rev
  | [] => [x]
  | y :: ys => if keyLt (revKey x) (revKey y) then y :: insertRev x ys else x :: y :: ys

/-- `r.sort(key=lambda x: x.get("creationDate",""), reverse=True)`:
`list.sort` with `reverse=True` is the stable descending sort by the
key, and a stable descending sort is uniquely determined by its input
(keys descending, entries with equal keys in as-received order), so
any stable implementation embeds it.  `sortRevs` is the stable
insertion sort: each element is inserted in front of the first
element, among those already placed from its right, whose key is not
strictly greater, which keeps ties in as-received order. -/
def sortRevs : List Rev → List Rev
  | [] => []
  | x :: xs => insertRev x (sortRevs xs)

/-- The pure core of `latest_rev` (lines 52-54), applied to the decoded
revision listing: raise `RuntimeError("No revisions")` on an empty
list, otherwise sort descending by creation date and return the id of
the first element.  The inner `[]` branch is unreachable because the
sort of a nonempty list is nonempty. -/
def latest_rev_pure (revs : List Rev) : Except PyErr String :=
  if revs = [] then .error (.runtimeError "No revisions")
  else
    match sortRevs revs with
    | [] => .error (.runtimeError "No revisions")
    | r :: _ => .ok r.id

/-- Response of `GET /scores/{sid}/revisions`. -/
structure RevResponse where
  status : Nat
  body : List Rev
deriving Repr

/-- `latest_rev(session, sid)` (backup.py lines 50-54): the request is
passed through `ok`, which raises `requests.HTTPError` for any status
of at least 400, then the pure core runs on the body. -/
def latest_rev (revResp : String → RevResponse) (sid : String) : Except PyErr String :=
  let r := revResp sid
  if 400 ≤ r.status then .error (.httpError r.status)
  else latest_rev_pure r.body

/-- Response of the url-mode export request
`session.get(url, params={"url":"true"})`: the `Content-Type` header
and the decoded JSON of the body.  `jsonUrl = none` means `r.json()`
raises (body not JSON); `some none` means the JSON object has no
`url` field (`.get("url")` gives `None`); `some (some u)` gives the
field value. -/
structure UrlResp where
  contentType : String
  jsonUrl : Option (Option String)
deriving Repr

/-- A raw-bytes response: status code and body bytes. -/
structure BytesResp where
  status : Nat
  content : List Nat
deriving Repr

/-- The remote state seen by one call of `fetch`: the url-mode
response for each export url, the streamed download response for each
handoff url, and the direct-bytes (`Accept: */*`) response for each
export url. -/
structure ExportEnv where
  urlMode : String → UrlResp
  download : String → BytesResp
  direct : String → BytesResp

/-- The local filesystem: each path maps to the bytes stored there, or
`none` when absent. -/
def FS : Type := String → Option (List Nat)

/-- Writing a whole artifact to a destination path. -/
def fsWrite (fs : FS) (path : String) (content : List Nat) : FS :=
  fun p => if p = path then some content else fs p

/-- `fetch(session, url, dest)` (backup.py lines 56-73), returning the
success flag, the filesystem after the call, and the number of HTTP
requests issued.  Tier 1 (lines 57-67): if the content type starts
with `application/json` and the body parses to an object with a truthy
`url` field, stream that url and write the chunks (modelled as the
whole body, the chunk loop preserves byte order); every exception in
this tier, including the `raise_for_status` on the streamed response,
is swallowed by `except Exception: pass`.  Tier 2 (lines 69-73):
re-request the export url with `Accept: */*`; `r.ok` means a status
below 400; on success write the full body and return `True`, else
return `False` without raising.  No statement of `fetch` outside the
`try` block raises, so the function is total. -/
def fetch (env : ExportEnv) (url dest : String) (fs : FS) : Bool × FS × Nat :=
  let fallback : Nat → Bool × FS × Nat := fun calls =>
    let r2 := env.direct url
    if r2.status < 400 then (true, fsWrite fs dest r2.content, calls + 1)
    else (false, fs, calls + 1)
  let r := env.urlMode url
  if r.contentType.startsWith "application/json" then
    match r.jsonUrl with
    | some (some u) =>
      if u ≠ "" then
        let rr := env.download u
        if rr.status < 400 then (true, fsWrite fs dest rr.content, 2)
        else fallback 2
      else fallback 1
    | _ => fallback 1
  else fallback 1

/-- The recognized extension table `EXT` (backup.py line 11), as a
lookup that can fail: `EXT[fmt]` raises `KeyError` on any other
format token. -/
def EXT : String → Option String
  | "pdf" => some "pdf"
  | "mp3" => some "mp3"
  | "wav" => some "wav"
  | "midi" => some "mid"
  | "musicxml" => some "musicxml"
  | "xml" => some "xml"
  | "png" => some "png"
  | "svg" => some "svg"
  | _ => none

/-- `api_fmt="musicxml" if fmt=="xml" else fmt` (line 111). -/
def apiFmt (fmt : String) : String := if fmt = "xml" then "musicxml" else fmt

/-- Characters replaced by `sanitize` (line 19): the regex class
`[\\/*?:"<>|]`. -/
def badChar (c : Char) : Bool :=
  c = '\\' || c = '/' || c = '*' || c = '?' || c = ':' || c = '"' ||
  c = '<' || c = '>' || c = '|'

/-- `re.sub` with pattern `[\\/*?:"<>|]+` and replacement `_`, with a
flag recording whether the scan stands inside a run of bad
characters: each maximal run collapses to a single underscore. -/
def collapseBadAux : Bool → List Char → List Char
  | _, [] => []
  | inRun, c :: rest =>
    if badChar c then
      if inRun then collapseBadAux true rest
      else '_' :: collapseBadAux true rest
    else c :: collapseBadAux false rest

/-- The regex replacement of line 19, starting outside a run. -/
def collapseBad (l : List Char) : List Char := collapseBadAux false l

/-- `str.strip()` on the character list: leading and trailing
whitespace removed. -/
def stripChars (l : List Char) : List Char :=
  ((l.dropWhile Char.isWhitespace).reverse.dropWhile Char.isWhitespace).reverse

/-- `sanitize(s)` (backup.py line 19): `s or ""` reads a missing or
empty title as `""`; bad-character runs collapse to `_`; the result is
stripped of surrounding whitespace; an empty result becomes
`"untitled"`. -/
def sanitize (s : Option String) : String :=
  let t := String.mk (stripChars (collapseBad (s.getD "").toList))
  if t = "" then "untitled" else t

/-- The API base url (line 6). -/
def API : String := "https://api.flat.io/v2"

/-- The export url of line 114. -/
def exportUrl (sid rev fmt : String) : String :=
  API ++ "/scores/" ++ sid ++ "/revisions/" ++ rev ++ "/" ++ fmt

/-- `dest=out/f"{title}__{sid}.{ext}"` (line 112) with `out=Path("out")`. -/
def destPath (title sid ext : String) : String :=
  "out/" ++ title ++ "__" ++ sid ++ "." ++ ext

/-- One row of the failure ledger (`failures.append([...])`):
title, score id, format (`"*"` when not format-specific), reason. -/
structure FailureRow where
  title : String
  scoreId : String
  format : String
  reason : String
deriving Repr, DecidableEq

/-- One manifest entry (line 123):
`{"id": sid, "title": sc.get("title"), "files": saved}`. -/
structure ManifestEntry where
  id : String
  title : Option String
  files : List String
deriving Repr, DecidableEq

/-- The mutable state of the per-resource format loop (lines 109-122):
the filesystem, the `saved` list, the failure ledger so far, and the
number of HTTP requests issued so far. -/
structure FmtState where
  fs : FS
  saved : List String
  failures : List FailureRow
  calls : Nat

/-- One iteration of `for fmt in FORMATS` (backup.py lines 110-122).
`ext=EXT[fmt]` raises an uncaught `KeyError` for an unrecognized
format, before the guarded fetch.  If the destination already exists
the path is recorded with no network call.  Otherwise `fetch` runs:
`True` records the path, `False` records the failure reason
`"400/404 or unsupported"`.  The `except requests.HTTPError` and
`except Exception` arms of lines 118-121 are unreachable from `fetch`:
its only `raise_for_status` sits inside a `try` whose handler swallows
every exception, and its other statements do not raise, so the
embedded `fetch` is total and the two arms have no model. -/
def stepFormat (env : ExportEnv) (title sid rev fmt : String) (st : FmtState) :
    Except PyErr FmtState :=
  match EXT fmt with
  | none => .error (.keyError fmt)
  | some ext =>
    let dest := destPath title sid ext
    if (st.fs dest).isSome then
      .ok { st with saved := st.saved ++ [dest] }
    else
      let url := exportUrl sid rev (apiFmt fmt)
      let res := fetch env url dest st.fs
      if res.1 then
        .ok { st with fs := res.2.1, saved := st.saved ++ [dest],
                      calls := st.calls + res.2.2 }
      else
        .ok { st with fs := res.2.1,
                      failures := st.failures ++
                        [⟨title, sid, fmt, "400/404 or unsupported"⟩],
                      calls := st.calls + res.2.2 }

/-- The accumulated run state of the orchestrator loop (lines
102-123). -/
structure RunState where
  fs : FS
  manifest : List ManifestEntry
  failures : List FailureRow
  calls : Nat

/-- One iteration of `for sc in tqdm(scores)` (backup.py lines
103-123): resolve the latest revision (one request; any exception is
downgraded to a `(title, sid, "*", "revisions: ...")` row and the
resource is skipped), then run the format loop and append the
manifest entry listing the saved files. -/
def processScore (revResp : String → RevResponse) (env : ExportEnv)
    (fmts : List String) (sc : Score) (st : RunState) : Except PyErr RunState :=
  let sid := sc.id
  let title := sanitize sc.title
  match latest_rev revResp sid with
  | .error e =>
    .ok { st with
          failures := st.failures ++ [⟨title, sid, "*", "revisions: " ++ pyMsg e⟩],
          calls := st.calls + 1 }
  | .ok rev => do
    let fin ← fmts.foldlM (fun a fmt => stepFormat env title sid rev fmt a)
      (FmtState.mk st.fs [] st.failures (st.calls + 1))
    .ok ⟨fin.fs, st.manifest ++ [⟨sid, sc.title, fin.saved⟩], fin.failures, fin.calls⟩

/-- The full per-score loop over the discovered resources. -/
def runScores (revResp : String → RevResponse) (env : ExportEnv)
    (fmts : List String) (scores : List Score) (st : RunState) :
    Except PyErr RunState :=
  scores.foldlM (fun a sc => processScore revResp env fmts sc a) st

/-- Everything `main` consumes from the remote. -/
structure FullEnv where
  disc : DiscoveryEnv
  revResp : String → RevResponse
  exports : ExportEnv

/-- What a completed run leaves behind: the manifest array and the
failure ledger rows. -/
structure RunOutput where
  manifest : List ManifestEntry
  failures : List FailureRow
deriving Repr, DecidableEq

/-- The post-discovery part of `main` as the control flow of lines
98-129 reads (the intended path, without the debug fragment of lines
88-96, which is modelled separately as `main_after_discovery`):
discovery errors propagate; an empty score list returns early after
printing `"No scores found."`, writing nothing (modelled as empty
output); otherwise the loop runs and the accumulated manifest and
ledger are written out. -/
def mainRun (env : FullEnv) (fmts : List String) (fuel : Nat) (fs0 : FS) :
    Except PyErr RunOutput := do
  let scores ← list_scores env.disc fuel
  if scores = [] then .ok ⟨[], []⟩
  else do
    let st ← runScores env.revResp env.exports fmts scores ⟨fs0, [], [], 0⟩
    .ok ⟨st.manifest, st.failures⟩

/-- What running `main` past line 87 can report, in the reading that
executes the statements of lines 88-96 in order. -/
inductive DebugOutcome where
  | printedNoScores
  | finished
deriving Repr, DecidableEq

/-- Lines 87-96 of `main` as written.  After `scores=list_scores(s)`
the next statement is the debug fragment
`print("First score:", scores[0])`, which raises `IndexError` when the
list is empty; on a nonempty list the following statement
`rev = latest_rev(sess, sid)` raises `NameError` because no variable
`sess` exists (the session is named `s`).  The guarded empty check of
lines 98-99 is never reached.  (As committed the fragment is also
dedented to column 0, so the file is in fact a `SyntaxError` at line
98 and `main` cannot run at all; either reading contradicts the
specified behaviour.) -/
def main_after_discovery (scores : List Score) : Except PyErr DebugOutcome :=
  match scores with
  | [] => .error .indexError
  | _ :: _ => .error (.nameError "sess")

/-! ## Concrete witness environments -/

/-- The first element of the list attaining the maximal key: an
element loses the maximum only to a strictly greater key arriving
later, so ties resolve to the earliest entry. -/
def firstMax : List Rev → Option Rev
  | [] => none
  | x :: xs =>
    match firstMax xs with
    | none => some x
    | some m => if keyLt (revKey x) (revKey m) then some m else some x

/-- A discovery environment whose root listing answers 500. -/
def c9disc : DiscoveryEnv :=
  ⟨fun _ => ⟨500, []⟩, fun _ => ⟨200, []⟩, fun _ _ => ⟨200, []⟩⟩

/-- A full environment built on `c9disc`. -/
def c9env : FullEnv :=
  ⟨c9disc, fun _ => ⟨200, []⟩,
   ⟨fun _ => ⟨"", none⟩, fun _ => ⟨404, []⟩, fun _ => ⟨404, []⟩⟩⟩

/-- An environment whose discovery returns one resource with one
revision. -/
def c10env : FullEnv :=
  ⟨⟨fun p => if p = 1 then ⟨200, [⟨"id1", some "One"⟩]⟩ else ⟨200, []⟩,
    fun _ => ⟨200, []⟩, fun _ _ => ⟨200, []⟩⟩,
   fun _ => ⟨200, [⟨"r1", some "2024-01-01"⟩]⟩,
   ⟨fun _ => ⟨"", none⟩, fun _ => ⟨404, []⟩, fun _ => ⟨404, []⟩⟩⟩

/-- The destination path a recognized format resolves to. -/
def destOf (title sid fmt : String) : String :=
  destPath title sid ((EXT fmt).getD "")

/-- An export environment whose url-mode responses are plain text and
whose direct tier answers 200 with a one-byte body. -/
def c8okEnv : ExportEnv :=
  ⟨fun _ => ⟨"text/html", none⟩, fun _ => ⟨404, []⟩, fun _ => ⟨200, [5]⟩⟩

/-- An export environment whose url-mode responses are JSON without a
`url` field and whose direct tier answers 500. -/
def c8errEnv : ExportEnv :=
  ⟨fun _ => ⟨"application/json", some none⟩, fun _ => ⟨404, []⟩, fun _ => ⟨500, []⟩⟩

/-- A revisions endpoint with a single undated revision `r1` for every
resource. -/
def c7RevEnv : String → RevResponse := fun _ => ⟨200, [⟨"r1", none⟩]⟩

/-- A filesystem already holding the pdf artifact of resource `s1`
titled `T`. -/
def c7fs : FS := fun p => if p = "out/T__s1.pdf" then some [1] else none

/-- A discovery environment exposing score `b` both in the root
listing and in collection `c1`: root lists `a, b`; the collections
listing exposes `c1` along with a missing and an empty id; collection
`c1` lists `b, d`. -/
def c6disc : DiscoveryEnv :=
  ⟨fun p => if p = 1 then ⟨200, [⟨"a", some "A"⟩, ⟨"b", none⟩]⟩ else ⟨200, []⟩,
   fun p => if p = 1 then ⟨200, [some "c1", none, some ""]⟩ else ⟨200, []⟩,
   fun cid p => if cid = "c1" ∧ p = 1 then ⟨200, [⟨"b", some "B2"⟩, ⟨"d", none⟩]⟩
                else ⟨200, []⟩⟩

/-- The per-collection items of `c6disc` as drained lists. -/
def c6colItems : String → List Score :=
  fun cid => if cid = "c1" then [⟨"b", some "B2"⟩, ⟨"d", none⟩] else []

/-- A discovery state whose root listing exposes exactly the given
scores on page 1, with no collections. -/
def rootOnlyDisc (scores : List Score) : DiscoveryEnv :=
  ⟨fun p => if p = 1 then ⟨200, scores⟩ else ⟨200, []⟩,
   fun _ => ⟨200, []⟩, fun _ _ => ⟨200, []⟩⟩

/-- The failure-aggregation scenario environment: resources exposed by
the root listing only; every url-mode response is plain (empty content
type), so every fetch falls to the direct tier, whose responses are
`dResp`. -/
def c2Env (scores : List Score) (rev : String → RevResponse)
    (dResp : String → BytesResp) : FullEnv :=
  ⟨rootOnlyDisc scores, rev, ⟨fun _ => ⟨"", none⟩, fun _ => ⟨404, []⟩, dResp⟩⟩

/-- Revisions for the concrete scenario: `idA` and `idC` have one
revision each, `idB` has none. -/
def c2rev : String → RevResponse := fun sid =>
  if sid = "idA" then ⟨200, [⟨"revA", some "2024-01-01"⟩]⟩
  else if sid = "idC" then ⟨200, [⟨"revC", some "2024-01-02"⟩]⟩
  else ⟨200, []⟩

/-- Direct-tier responses for the concrete scenario: the pdf export of
`idA` succeeds, everything else answers 404. -/
def c2dResp : String → BytesResp := fun u =>
  if u = exportUrl "idA" "revA" "pdf" then ⟨200, [7]⟩ else ⟨404, []⟩

/-- A revisions endpoint answering success with an empty listing for
every resource. -/
def c3RevEnv : String → RevResponse := fun _ => ⟨200, []⟩

/-- The revision listing of the specification example: creation dates
2023-01-01, 2024-06-01, 2023-06-01 in as-received order. -/
def c3Revs : List Rev :=
  [⟨"r1", some "2023-01-01"⟩, ⟨"r2", some "2024-06-01"⟩, ⟨"r3", some "2023-06-01"⟩]

/-! ## Claim C1 -/

/-- Claim C1, evaluated at the failing input: when `list_scores`
returns the empty resource set, `main` does not report
`"No scores found."` and end successfully — the debug statement
`print("First score:", scores[0])` at line 88 runs first and raises
`IndexError`, so the claimed empty-manifest success path of lines
98-99 is unreachable. -/
theorem C1_empty_discovery_raises :
    main_after_discovery [] = .error .indexError ∧
    main_after_discovery [] ≠ .ok .printedNoScores := by
  exact ⟨rfl, by simp [main_after_discovery]⟩

/-! ## Claims C4 and C5: the pager -/

/-- Core pagination lemma: starting at any page number, `N`
consecutive successful nonempty pages followed by a successful empty
page make the pager yield exactly the concatenation of the `N` page
bodies in page order, issue `N + 1` requests and stop on the empty
page. -/
theorem pagedFrom_full (pages : Nat → Page α) (N : Nat) :
    ∀ (page fuel : Nat), N + 1 ≤ fuel →
    (∀ i, page ≤ i → i < page + N → (pages i).status < 400 ∧ (pages i).body ≠ []) →
    (pages (page + N)).status < 400 → (pages (page + N)).body = [] →
    pagedFrom pages fuel page =
      ⟨(List.range' page N).flatMap (fun i => (pages i).body), N + 1, .stopped .empty⟩ := by
  induction N with
  | zero =>
    intro page fuel hfuel hfull hst hemp
    obtain ⟨f, rfl⟩ : ∃ f, fuel = f + 1 := ⟨fuel - 1, by omega⟩
    simp only [Nat.add_zero] at hst hemp
    have h403 : ¬ (pages page).status = 403 := by omega
    have h400 : ¬ 400 ≤ (pages page).status := by omega
    simp [pagedFrom, h403, h400, hemp]
  | succ n ih =>
    intro page fuel hfuel hfull hst hemp
    obtain ⟨f, rfl⟩ : ∃ f, fuel = f + 1 := ⟨fuel - 1, by omega⟩
    have hp := hfull page (Nat.le_refl _) (by omega)
    have h403 : ¬ (pages page).status = 403 := by omega
    have h400 : ¬ 400 ≤ (pages page).status := by omega
    have hne : (pages page).body.isEmpty = false := by
      simpa [List.isEmpty_iff] using hp.2
    have harith : page + 1 + n = page + (n + 1) := by omega
    have hrest := ih (page + 1) f (by omega)
      (fun i h1 h2 => hfull i (by omega) (by omega))
      (by rw [harith]; exact hst) (by rw [harith]; exact hemp)
    rw [pagedFrom]
    simp only [h403, if_false, h400, hne, Bool.false_eq_true, hrest, List.range'_succ]
    simp

/-- Claim C4: a listing of `N` consecutive successful full pages of
100 items followed by a successful empty page makes `paged` yield
exactly the `N * 100` items in page order, issue exactly `N + 1`
requests, and terminate on the empty page. -/
theorem C4_pagination_termination (pages : Nat → Page α) (N fuel : Nat)
    (hfuel : N + 1 ≤ fuel)
    (hfull : ∀ i, 1 ≤ i → i ≤ N → (pages i).status < 400 ∧ (pages i).body.length = 100)
    (hst : (pages (N + 1)).status < 400) (hemp : (pages (N + 1)).body = []) :
    paged pages fuel =
      ⟨(List.range' 1 N).flatMap (fun i => (pages i).body), N + 1, .stopped .empty⟩ ∧
    ((List.range' 1 N).flatMap (fun i => (pages i).body)).length = N * 100 := by
  have hlen : ∀ (s n : Nat), (∀ i, s ≤ i → i < s + n → (pages i).body.length = 100) →
      ((List.range' s n).flatMap (fun i => (pages i).body)).length = n * 100 := by
    intro s n
    induction n generalizing s with
    | zero => intro _; simp
    | succ m ih =>
      intro h
      rw [List.range'_succ]
      have := ih (s + 1) (fun i h1 h2 => h i (by omega) (by omega))
      simp only [List.flatMap_cons, List.length_append, this, h s (Nat.le_refl _) (by omega)]
      ring
  constructor
  · have := pagedFrom_full pages N 1 fuel hfuel
      (fun i h1 h2 => ⟨(hfull i h1 (by omega)).1, by
        have := (hfull i h1 (by omega)).2
        intro hnil
        rw [hnil] at this
        simp at this⟩)
      (by rw [Nat.add_comm 1 N]; exact hst) (by rw [Nat.add_comm 1 N]; exact hemp)
    simpa [paged] using this
  · exact hlen 1 N (fun i h1 h2 => (hfull i h1 (by omega)).2)

/-- Claim C4, witnessed at two full pages of 100 items followed by an
empty third page. -/
theorem C4_witness :
    paged (fun p => if p ≤ 2 then ⟨200, List.replicate 100 0⟩ else (⟨200, []⟩ : Page Nat)) 3 =
      ⟨(List.range' 1 2).flatMap
        (fun i => ((fun p => if p ≤ 2 then ⟨200, List.replicate 100 0⟩
                             else (⟨200, []⟩ : Page Nat)) i).body), 3, .stopped .empty⟩ ∧
    ((List.range' 1 2).flatMap
      (fun i => ((fun p => if p ≤ 2 then ⟨200, List.replicate 100 0⟩
                           else (⟨200, []⟩ : Page Nat)) i).body)).length = 2 * 100 := by
  exact C4_pagination_termination _ 2 3 (by omega)
    (by
      intro i h1 h2
      have : i = 1 ∨ i = 2 := by omega
      rcases this with h | h <;> subst h <;> simp)
    (by simp) (by simp)

/-- Claim C5: a listing whose page-1 response has status 403 makes
`paged` yield zero items, issue exactly one request, and stop silently
without raising. -/
theorem C5_forbidden_short_circuit (pages : Nat → Page α) (fuel : Nat)
    (hfuel : 0 < fuel) (h403 : (pages 1).status = 403) :
    paged pages fuel = ⟨[], 1, .stopped .forbidden⟩ := by
  obtain ⟨f, rfl⟩ : ∃ f, fuel = f + 1 := ⟨fuel - 1, by omega⟩
  simp [paged, pagedFrom, h403]

/-- Claim C5, witnessed at a listing that is forbidden outright. -/
theorem C5_witness :
    paged (fun _ => (⟨403, [0]⟩ : Page Nat)) 1 = ⟨[], 1, .stopped .forbidden⟩ :=
  C5_forbidden_short_circuit _ 1 (by decide) (by decide)

/-! ## Claim C9: non-success, non-403 listing statuses -/

/-- Claim C9: a listing page whose status is at least 400 and not 403
makes the pager raise a request error at once (one request issued,
nothing yielded from that page on); the raise propagates out of
`list_scores`; and a discovery error aborts the whole run, so no
partial resource set is ever used. -/
theorem C9_listing_error_propagates :
    (∀ (α : Type) (pages : Nat → Page α) (fuel page : Nat), 0 < fuel →
      (pages page).status ≠ 403 → 400 ≤ (pages page).status →
      pagedFrom pages fuel page = ⟨[], 1, .raised (pages page).status⟩) ∧
    (∀ (disc : DiscoveryEnv) (fuel : Nat), 0 < fuel →
      (disc.rootPages 1).status ≠ 403 → 400 ≤ (disc.rootPages 1).status →
      list_scores disc fuel = .error (.httpError (disc.rootPages 1).status)) ∧
    (∀ (env : FullEnv) (fmts : List String) (fuel : Nat) (fs0 : FS) (e : PyErr),
      list_scores env.disc fuel = .error e →
      mainRun env fmts fuel fs0 = .error e) := by
  have hraise : ∀ (α : Type) (pages : Nat → Page α) (fuel page : Nat), 0 < fuel →
      (pages page).status ≠ 403 → 400 ≤ (pages page).status →
      pagedFrom pages fuel page = ⟨[], 1, .raised (pages page).status⟩ := by
    intro α pages fuel page hfuel h403 h400
    obtain ⟨f, rfl⟩ : ∃ f, fuel = f + 1 := ⟨fuel - 1, by omega⟩
    simp [pagedFrom, h403, h400]
  refine ⟨hraise, ?_, ?_⟩
  · intro disc fuel hfuel h403 h400
    have := hraise Score disc.rootPages fuel 1 hfuel h403 h400
    simp only [list_scores, pagedE, paged, this]
    rfl
  · intro env fmts fuel fs0 e h
    simp only [mainRun, h]
    rfl

/-- Claim C9, witnessed at a root listing answering 500 on page 1. -/
theorem C9_witness :
    pagedFrom (fun _ => (⟨500, []⟩ : Page Nat)) 1 1 = ⟨[], 1, .raised 500⟩ ∧
    list_scores c9disc 1 = .error (.httpError 500) ∧
    mainRun c9env [] 1 (fun _ => none) = .error (.httpError 500) := by
  refine ⟨?_, ?_, ?_⟩
  · exact C9_listing_error_propagates.1 Nat _ 1 1 (by decide) (by decide) (by decide)
  · exact C9_listing_error_propagates.2.1 c9disc 1 (by decide) (by decide) (by decide)
  · exact C9_listing_error_propagates.2.2 c9env [] 1 (fun _ => none) _
      (C9_listing_error_propagates.2.1 c9disc 1 (by decide) (by decide) (by decide))

/-! ## Claim C10: unrecognized format tokens -/

/-- A format whose extension lookup succeeds is processed without
raising: every arm of `stepFormat` other than the `EXT` lookup returns
normally. -/
theorem stepFormat_ok (env : ExportEnv) (title sid rev fmt : String) (st : FmtState)
    (h : (EXT fmt).isSome) : ∃ st2, stepFormat env title sid rev fmt st = .ok st2 := by
  obtain ⟨ext, hext⟩ := Option.isSome_iff_exists.mp h
  unfold stepFormat
  rw [hext]
  dsimp only
  split
  · exact ⟨_, rfl⟩
  · split
    · exact ⟨_, rfl⟩
    · exact ⟨_, rfl⟩

/-- Claim C10: a requested format token outside the `EXT` table makes
the per-format loop raise `KeyError` at `ext=EXT[fmt]`, before the
guarded export attempt; the error propagates through the per-resource
loop and aborts the whole run, which therefore records no
format-level failure row. -/
theorem C10_unknown_format_aborts :
    (∀ (env : ExportEnv) (title sid rev fmt : String) (st : FmtState), EXT fmt = none →
      stepFormat env title sid rev fmt st = .error (.keyError fmt)) ∧
    (∀ (revResp : String → RevResponse) (env : ExportEnv) (good rest : List String)
       (fmt : String) (sc : Score) (st : RunState) (rev : String),
      latest_rev revResp sc.id = .ok rev →
      (∀ f ∈ good, (EXT f).isSome) → EXT fmt = none →
      processScore revResp env (good ++ fmt :: rest) sc st = .error (.keyError fmt)) ∧
    (∀ (envF : FullEnv) (fmts : List String) (fuel : Nat) (fs0 : FS)
       (sc : Score) (restSc : List Score) (e : PyErr),
      list_scores envF.disc fuel = .ok (sc :: restSc) →
      processScore envF.revResp envF.exports fmts sc ⟨fs0, [], [], 0⟩ = .error e →
      mainRun envF fmts fuel fs0 = .error e) := by
  have hstep : ∀ (env : ExportEnv) (title sid rev fmt : String) (st : FmtState),
      EXT fmt = none → stepFormat env title sid rev fmt st = .error (.keyError fmt) := by
    intro env title sid rev fmt st hbad
    unfold stepFormat
    rw [hbad]
  refine ⟨hstep, ?_, ?_⟩
  · intro revResp env good rest fmt sc st rev hrev hgood hbad
    simp only [processScore, hrev]
    have hloop : ∀ (gs : List String) (a : FmtState), (∀ f ∈ gs, (EXT f).isSome) →
        (gs ++ fmt :: rest).foldlM
          (fun a f => stepFormat env (sanitize sc.title) sc.id rev f a) a
          = .error (.keyError fmt) := by
      intro gs
      induction gs with
      | nil =>
        intro a _
        simp [hstep env (sanitize sc.title) sc.id rev fmt a hbad]
      | cons g gsub ih =>
        intro a hg
        obtain ⟨st2, h2⟩ := stepFormat_ok env (sanitize sc.title) sc.id rev g a
          (hg g (by simp))
        simp only [List.cons_append, List.foldlM_cons, h2, except_ok_bind]
        exact ih st2 (fun f hf => hg f (by simp [hf]))
    rw [hloop good (FmtState.mk st.fs [] st.failures (st.calls + 1)) hgood]
    rfl
  · intro envF fmts fuel fs0 sc restSc e hls hps
    have hne : ¬ (sc :: restSc : List Score) = [] := by simp
    simp only [mainRun, hls, except_ok_bind, hne, if_false, runScores,
      List.foldlM_cons, hps, except_error_bind]

/-- Claim C10, witnessed at the unrecognized format token `"ogg"`
requested after `"pdf"`. -/
theorem C10_witness :
    processScore c10env.revResp c10env.exports ["pdf", "ogg"] ⟨"id1", some "One"⟩
      ⟨fun _ => none, [], [], 0⟩ = .error (.keyError "ogg") ∧
    mainRun c10env ["pdf", "ogg"] 2 (fun _ => none) = .error (.keyError "ogg") := by
  have hps : processScore c10env.revResp c10env.exports ["pdf", "ogg"] ⟨"id1", some "One"⟩
      ⟨fun _ => none, [], [], 0⟩ = .error (.keyError "ogg") := by
    have := C10_unknown_format_aborts.2.1 c10env.revResp c10env.exports ["pdf"] []
      "ogg" ⟨"id1", some "One"⟩ ⟨fun _ => none, [], [], 0⟩ "r1" (by rfl)
      (by intro f hf; simp at hf; subst hf; decide) (by decide)
    simpa using this
  refine ⟨hps, ?_⟩
  exact C10_unknown_format_aborts.2.2 c10env ["pdf", "ogg"] 2 (fun _ => none)
    ⟨"id1", some "One"⟩ [] _ (by rfl) hps

/-! ## Claim C3: revision selection -/

/-- `firstMax` of a nonempty list is never `none`. -/
theorem firstMax_cons_ne_none (a : Rev) (as : List Rev) : firstMax (a :: as) ≠ none := by
  rw [firstMax]
  cases firstMax as with
  | none => simp
  | some m => dsimp only; split <;> simp

/-- Head of a stable descending insertion: the inserted element takes
the head unless the old head has a strictly greater key. -/
theorem insertRev_head (x : Rev) (l : List Rev) :
    (insertRev x l).head? =
      match l.head? with
      | none => some x
      | some y => if keyLt (revKey x) (revKey y) then some y else some x := by
  cases l with
  | nil => rfl
  | cons y ys =>
    by_cases h : keyLt (revKey x) (revKey y)
    · simp [insertRev, h]
    · simp [insertRev, h]

/-- The head of the stable descending sort is the first maximal
element of the input. -/
theorem sortRevs_head (revs : List Rev) : (sortRevs revs).head? = firstMax revs := by
  induction revs with
  | nil => rfl
  | cons x xs ih =>
    rw [sortRevs, insertRev_head, ih, firstMax]

/-- The first maximal element occurs in the list, its key dominates
every entry, and every entry strictly before it has a strictly
smaller key. -/
theorem firstMax_spec : ∀ (revs : List Rev) (m : Rev), firstMax revs = some m →
    ∃ i : Fin revs.length, revs.get i = m ∧
      (∀ x ∈ revs, keyLe (revKey x) (revKey m)) ∧
      ∀ j : Fin revs.length, j.val < i.val → keyLt (revKey (revs.get j)) (revKey m) := by
  intro revs
  induction revs with
  | nil => intro m h; simp [firstMax] at h
  | cons x xs ih =>
    intro m h
    rw [firstMax] at h
    cases hm : firstMax xs with
    | none =>
      rw [hm] at h
      obtain rfl : x = m := by injection h
      have hnil : xs = [] := by
        cases xs with
        | nil => rfl
        | cons a as => exact absurd hm (firstMax_cons_ne_none a as)
      subst hnil
      refine ⟨⟨0, by simp⟩, rfl, ?_, ?_⟩
      · intro y hy
        simp at hy
        subst hy
        exact le_refl _
      · intro j hj
        simp at hj
    | some mPrev =>
      rw [hm] at h
      dsimp only at h
      obtain ⟨iPrev, hget, hmax, hfirst⟩ := ih mPrev hm
      by_cases hlt : keyLt (revKey x) (revKey mPrev)
      · rw [if_pos hlt] at h
        obtain rfl : mPrev = m := by injection h
        refine ⟨⟨iPrev.val + 1, by simp [iPrev.isLt]⟩, by simpa using hget, ?_, ?_⟩
        · intro y hy
          rcases List.mem_cons.mp hy with rfl | hy
          · exact le_of_lt hlt
          · exact hmax y hy
        · intro j hj
          rcases j with ⟨jv, hjlt⟩
          cases jv with
          | zero => simpa using hlt
          | succ k =>
            have hk : k < iPrev.val := by simpa using hj
            have := hfirst ⟨k, by simpa using hjlt⟩ hk
            simpa using this
      · rw [if_neg hlt] at h
        obtain rfl : x = m := by injection h
        refine ⟨⟨0, by simp⟩, rfl, ?_, ?_⟩
        · intro y hy
          rcases List.mem_cons.mp hy with rfl | hy
          · exact le_refl _
          · exact le_trans (hmax y hy) (not_lt.mp hlt)
        · intro j hj
          simp at hj

/-- On a nonempty listing `latest_rev_pure` returns the id of the
first maximal element. -/
theorem latest_rev_pure_eq (revs : List Rev) (h : revs ≠ []) (m : Rev)
    (hm : firstMax revs = some m) : latest_rev_pure revs = .ok m.id := by
  have hh : (sortRevs revs).head? = some m := by rw [sortRevs_head, hm]
  obtain ⟨t, ht⟩ := List.head?_eq_some_iff.mp hh
  unfold latest_rev_pure
  rw [if_neg h, ht]

/-- Claim C3 (amended): an empty revision listing makes `latest_rev`
fail with the fixed error `RuntimeError("No revisions")`, a message
that does not include the resource id; a nonempty listing returns the
id of the first revision, in as-received order, attaining the
greatest creation date, where a missing date reads as the least key
`""` (so such revisions sort last) and every revision strictly before
the returned one has a strictly smaller key — the stable-sort tie
rule. -/
theorem C3_latest_revision_selection :
    (∀ (revResp : String → RevResponse) (sid : String),
      (revResp sid).status < 400 → (revResp sid).body = [] →
      latest_rev revResp sid = .error (.runtimeError "No revisions")) ∧
    (∀ revs : List Rev, revs ≠ [] →
      ∃ i : Fin revs.length,
        latest_rev_pure revs = .ok (revs.get i).id ∧
        (∀ x ∈ revs, keyLe (revKey x) (revKey (revs.get i))) ∧
        ∀ j : Fin revs.length, j.val < i.val →
          keyLt (revKey (revs.get j)) (revKey (revs.get i))) := by
  constructor
  · intro revResp sid hst hbody
    have : ¬ 400 ≤ (revResp sid).status := by omega
    simp [latest_rev, this, hbody, latest_rev_pure]
  · intro revs hne
    obtain ⟨x, xs, rfl⟩ : ∃ x xs, revs = x :: xs := by
      cases revs with
      | nil => exact absurd rfl hne
      | cons x xs => exact ⟨x, xs, rfl⟩
    obtain ⟨m, hm⟩ : ∃ m, firstMax (x :: xs) = some m := by
      cases h : firstMax (x :: xs) with
      | none => exact absurd h (firstMax_cons_ne_none x xs)
      | some m => exact ⟨m, rfl⟩
    obtain ⟨i, hget, hmax, hfirst⟩ := firstMax_spec (x :: xs) m hm
    refine ⟨i, ?_, ?_, ?_⟩
    · rw [latest_rev_pure_eq (x :: xs) hne m hm, hget]
    · rw [hget]; exact hmax
    · rw [hget]; exact hfirst

/-- Claim C3 counterexample: for the resource id `score-42` with an
empty revision listing, the raised error message is the fixed string
`No revisions`, which does not contain the resource id — the claim
that the error names the resource is false. -/
theorem C3_counterexample :
    latest_rev c3RevEnv "score-42" = .error (.runtimeError "No revisions") ∧
    ¬ ("score-42".toList <:+: "No revisions".toList) :=
  ⟨rfl, by decide⟩

/-- Claim C3, witnessed at the specification example listing: the
returned revision is `r2`, carrying the greatest creation date
2024-06-01. -/
theorem C3_witness :
    latest_rev c3RevEnv "any" = .error (.runtimeError "No revisions") ∧
    latest_rev_pure c3Revs = .ok "r2" ∧
    ∃ i : Fin c3Revs.length,
      latest_rev_pure c3Revs = .ok (c3Revs.get i).id ∧
      (∀ x ∈ c3Revs, keyLe (revKey x) (revKey (c3Revs.get i))) ∧
      ∀ j : Fin c3Revs.length, j.val < i.val →
        keyLt (revKey (c3Revs.get j)) (revKey (c3Revs.get i)) :=
  ⟨C3_latest_revision_selection.1 c3RevEnv "any" (by decide) rfl,
   by rfl,
   C3_latest_revision_selection.2 c3Revs (by decide)⟩

/-! ## Claim C8: the fallback tier of fetch -/

/-- Claim C8: when the url-mode response is not JSON — by content
type or because the body does not parse — or its JSON object has no
`url` field, `fetch` falls through to the direct-bytes tier; a
success status there writes the full body to the destination and
reports success, and a non-success status reports `False` with the
filesystem untouched.  Either way `fetch` returns rather than
raising: its only raising statement sits inside the swallowed
`try`. -/
theorem C8_fallback_tier (env : ExportEnv) (url dest : String) (fs : FS)
    (h : ¬ (env.urlMode url).contentType.startsWith "application/json" ∨
         (env.urlMode url).jsonUrl = none ∨ (env.urlMode url).jsonUrl = some none) :
    ((env.direct url).status < 400 →
      fetch env url dest fs = (true, fsWrite fs dest (env.direct url).content, 2)) ∧
    (400 ≤ (env.direct url).status →
      fetch env url dest fs = (false, fs, 2)) := by
  have hfall : fetch env url dest fs =
      (if (env.direct url).status < 400
       then (true, fsWrite fs dest (env.direct url).content, 2)
       else (false, fs, 2)) := by
    rcases h with h | h | h
    · simp [fetch, h]
    · by_cases hct : (env.urlMode url).contentType.startsWith "application/json"
      · simp [fetch, hct, h]
      · simp [fetch, hct]
    · by_cases hct : (env.urlMode url).contentType.startsWith "application/json"
      · simp [fetch, hct, h]
      · simp [fetch, hct]
  constructor
  · intro hok
    rw [hfall, if_pos hok]
  · intro hbad
    have : ¬ (env.direct url).status < 400 := by omega
    rw [hfall, if_neg this]

/-- Claim C8, witnessed at a text-typed url-mode response with a
succeeding direct tier, and at a JSON response without `url` with a
failing direct tier. -/
theorem C8_witness :
    fetch c8okEnv "u" "d" (fun _ => none) =
      (true, fsWrite (fun _ => none) "d" [5], 2) ∧
    fetch c8errEnv "u" "d" (fun _ => none) = (false, fun _ => none, 2) :=
  ⟨(C8_fallback_tier c8okEnv "u" "d" (fun _ => none) (Or.inl (by decide))).1 (by decide),
   (C8_fallback_tier c8errEnv "u" "d" (fun _ => none)
      (Or.inr (Or.inr rfl))).2 (by decide)⟩

/-! ## Claim C7: idempotent re-run on existing artifacts -/

/-- A format loop over formats whose destinations all already exist
records each path in order and changes nothing else: no filesystem
write, no failure row, no request. -/
theorem foldl_cached (env : ExportEnv) (title sid rev : String) :
    ∀ (fmts : List String) (a : FmtState),
    (∀ fmt ∈ fmts, (EXT fmt).isSome ∧ (a.fs (destOf title sid fmt)).isSome) →
    fmts.foldlM (fun a fmt => stepFormat env title sid rev fmt a) a =
      .ok { a with saved := a.saved ++ fmts.map (destOf title sid) } := by
  intro fmts
  induction fmts with
  | nil =>
    intro a _
    simp only [List.foldlM_nil, List.map_nil, List.append_nil]
    rfl
  | cons f fs ih =>
    intro a h
    obtain ⟨hext, hfs⟩ := h f (by simp)
    obtain ⟨ext, hx⟩ := Option.isSome_iff_exists.mp hext
    have hdest : destOf title sid f = destPath title sid ext := by
      rw [destOf, hx]
      rfl
    have hstep : stepFormat env title sid rev f a =
        .ok { a with saved := a.saved ++ [destOf title sid f] } := by
      unfold stepFormat
      rw [hx]
      dsimp only
      rw [hdest] at hfs ⊢
      rw [if_pos hfs]
    rw [List.foldlM_cons, hstep]
    simp only [except_ok_bind]
    rw [ih _ (fun g hg => by
      refine ⟨(h g (by simp [hg])).1, ?_⟩
      exact (h g (by simp [hg])).2)]
    simp

/-- Claim C7: for a resource whose every requested format already has
its destination artifact on disk, the export step issues zero network
requests (the single counted call is the revision lookup), records
each existing path, leaves the filesystem — and hence every artifact
— untouched, and appends a manifest entry listing those paths; a
second run from the resulting state appends the identical manifest
entry again. -/
theorem C7_idempotent_rerun (revResp : String → RevResponse) (env : ExportEnv)
    (fmts : List String) (sc : Score) (st : RunState) (rev : String)
    (hrev : latest_rev revResp sc.id = .ok rev)
    (hall : ∀ fmt ∈ fmts, (EXT fmt).isSome ∧
            (st.fs (destOf (sanitize sc.title) sc.id fmt)).isSome) :
    processScore revResp env fmts sc st =
      .ok { st with
            manifest := st.manifest ++
              [⟨sc.id, sc.title, fmts.map (destOf (sanitize sc.title) sc.id)⟩],
            calls := st.calls + 1 } ∧
    processScore revResp env fmts sc
      { st with
        manifest := st.manifest ++
          [⟨sc.id, sc.title, fmts.map (destOf (sanitize sc.title) sc.id)⟩],
        calls := st.calls + 1 } =
      .ok { st with
            manifest := st.manifest ++
              [⟨sc.id, sc.title, fmts.map (destOf (sanitize sc.title) sc.id)⟩,
               ⟨sc.id, sc.title, fmts.map (destOf (sanitize sc.title) sc.id)⟩],
            calls := st.calls + 1 + 1 } := by
  have key : ∀ (stx : RunState), stx.fs = st.fs →
      processScore revResp env fmts sc stx =
        .ok { stx with
              manifest := stx.manifest ++
                [⟨sc.id, sc.title, fmts.map (destOf (sanitize sc.title) sc.id)⟩],
              calls := stx.calls + 1 } := by
    intro stx hfs
    simp only [processScore, hrev]
    rw [foldl_cached env (sanitize sc.title) sc.id rev fmts
      (FmtState.mk stx.fs [] stx.failures (stx.calls + 1))
      (fun fmt hf => by rw [hfs] at *; exact hall fmt hf)]
    simp
  refine ⟨key st rfl, ?_⟩
  have h2 := key { st with
    manifest := st.manifest ++
      [⟨sc.id, sc.title, fmts.map (destOf (sanitize sc.title) sc.id)⟩],
    calls := st.calls + 1 } rfl
  simpa using h2

/-- Claim C7, witnessed at a single pdf artifact already present for
resource `s1` titled `T`. -/
theorem C7_witness :
    processScore c7RevEnv c8okEnv ["pdf"] ⟨"s1", some "T"⟩ ⟨c7fs, [], [], 0⟩ =
      .ok ⟨c7fs, [⟨"s1", some "T", ["out/T__s1.pdf"]⟩], [], 1⟩ ∧
    processScore c7RevEnv c8okEnv ["pdf"] ⟨"s1", some "T"⟩
      ⟨c7fs, [⟨"s1", some "T", ["out/T__s1.pdf"]⟩], [], 1⟩ =
      .ok ⟨c7fs, [⟨"s1", some "T", ["out/T__s1.pdf"]⟩,
                  ⟨"s1", some "T", ["out/T__s1.pdf"]⟩], [], 2⟩ := by
  have h := C7_idempotent_rerun c7RevEnv c8okEnv ["pdf"] ⟨"s1", some "T"⟩
    ⟨c7fs, [], [], 0⟩ "r1" (by rfl)
    (by
      intro fmt hf
      simp only [List.mem_singleton] at hf
      subst hf
      exact ⟨by decide, by rfl⟩)
  exact h

/-! ## Claim C6: deduplication and discovery order -/

/-- The dedup fold of `list_scores` records exactly the ids of the
scanned items on top of the previously seen ids, and appends exactly
the items surviving the first-seen filter. -/
theorem addScores_eq : ∀ (items : List Score) (seen : List String) (out : List Score),
    addScores (seen, out) items = (seenAcc seen items, out ++ firstSeenFrom seen items) := by
  intro items
  induction items with
  | nil => intro seen out; simp [addScores, seenAcc, firstSeenFrom]
  | cons s rest ih =>
    intro seen out
    by_cases h : s.id ∈ seen
    · rw [seenAcc, firstSeenFrom]
      simp only [h, if_true]
      simpa [addScores, addNew, h] using ih seen out
    · rw [seenAcc, firstSeenFrom]
      simp only [h, if_false]
      have : addScores (seen, out) (s :: rest) = addScores (s.id :: seen, out ++ [s]) rest := by
        simp [addScores, addNew, h]
      rw [this, ih]
      simp

/-- Seen-id bookkeeping splits over concatenation. -/
theorem seenAcc_append : ∀ (xs ys : List Score) (seen : List String),
    seenAcc seen (xs ++ ys) = seenAcc (seenAcc seen xs) ys := by
  intro xs
  induction xs with
  | nil => intro ys seen; rfl
  | cons s rest ih =>
    intro ys seen
    by_cases h : s.id ∈ seen
    · simp only [List.cons_append, seenAcc, h, if_true]
      exact ih ys seen
    · simp only [List.cons_append, seenAcc, h, if_false]
      exact ih ys (s.id :: seen)

/-- The first-seen filter splits over concatenation: the second block
is filtered against everything the first block has recorded. -/
theorem firstSeenFrom_append : ∀ (xs ys : List Score) (seen : List String),
    firstSeenFrom seen (xs ++ ys) =
      firstSeenFrom seen xs ++ firstSeenFrom (seenAcc seen xs) ys := by
  intro xs
  induction xs with
  | nil => intro ys seen; rfl
  | cons s rest ih =>
    intro ys seen
    by_cases h : s.id ∈ seen
    · simp only [List.cons_append, firstSeenFrom, seenAcc, h, if_true]
      exact ih ys seen
    · simp only [List.cons_append, firstSeenFrom, seenAcc, h, if_false, List.cons_append]
      exact congrArg _ (ih ys (s.id :: seen))

/-- The first-seen filter emits no id twice and nothing already
seen. -/
theorem firstSeenFrom_nodup : ∀ (xs : List Score) (seen : List String),
    ((firstSeenFrom seen xs).map (fun s => s.id)).Nodup ∧
    ∀ a ∈ (firstSeenFrom seen xs).map (fun s => s.id), a ∉ seen := by
  intro xs
  induction xs with
  | nil => intro seen; simp [firstSeenFrom]
  | cons s rest ih =>
    intro seen
    by_cases h : s.id ∈ seen
    · rw [firstSeenFrom]
      simp only [h, if_true]
      exact ih seen
    · rw [firstSeenFrom]
      simp only [h, if_false, List.map_cons, List.nodup_cons]
      obtain ⟨hnd, hdisj⟩ := ih (s.id :: seen)
      refine ⟨⟨?_, hnd⟩, ?_⟩
      · intro hmem
        exact hdisj s.id hmem (by simp)
      · intro a ha
        rcases List.mem_cons.mp ha with rfl | ha
        · exact h
        · intro hseen
          exact hdisj a ha (by simp [hseen])

/-- Claim C6: when discovery completes, `list_scores` returns exactly
the first-seen filter of the discovery order — root items first, then
the items of each listed collection with a truthy id, in listing
order — so each id keeps its first-seen position and no id appears
twice. -/
theorem C6_dedup_discovery_order (env : DiscoveryEnv) (fuel : Nat)
    (rootItems : List Score) (cols : List (Option String))
    (colItems : String → List Score)
    (h1 : pagedE env.rootPages fuel = .ok rootItems)
    (h2 : pagedE env.colPages fuel = .ok cols)
    (h3 : ∀ cid ∈ cols.filterMap truthyId,
          pagedE (env.colScorePages cid) fuel = .ok (colItems cid)) :
    list_scores env fuel =
      .ok (firstSeenFrom []
        (rootItems ++ (cols.filterMap truthyId).flatMap colItems)) ∧
    ((firstSeenFrom []
        (rootItems ++ (cols.filterMap truthyId).flatMap colItems)).map
      (fun s => s.id)).Nodup := by
  have loop : ∀ (cs : List (Option String)) (seen : List String) (out : List Score),
      (∀ cid ∈ cs.filterMap truthyId,
        pagedE (env.colScorePages cid) fuel = .ok (colItems cid)) →
      cs.foldlM (fun acc col =>
        match truthyId col with
        | none => pure acc
        | some cid => do
          let ss ← pagedE (env.colScorePages cid) fuel
          pure (addScores acc ss)) ((seen, out) : List String × List Score) =
      .ok (seenAcc seen ((cs.filterMap truthyId).flatMap colItems),
           out ++ firstSeenFrom seen ((cs.filterMap truthyId).flatMap colItems)) := by
    intro cs
    induction cs with
    | nil =>
      intro seen out _
      simp only [List.filterMap_nil, List.flatMap_nil, List.foldlM_nil,
        seenAcc, firstSeenFrom, List.append_nil]
      rfl
    | cons c rest ih =>
      intro seen out hall
      cases hc : truthyId c with
      | none =>
        simp only [List.foldlM_cons, hc]
        have := ih seen out (fun cid hcid => hall cid (by simp [List.filterMap_cons, hc, hcid]))
        simpa [List.filterMap_cons, hc] using this
      | some cid =>
        have hc1 : pagedE (env.colScorePages cid) fuel = .ok (colItems cid) :=
          hall cid (by simp [List.filterMap_cons, hc])
        simp only [List.foldlM_cons, hc, hc1, except_ok_bind]
        rw [addScores_eq]
        have hrec := ih (seenAcc seen (colItems cid))
          (out ++ firstSeenFrom seen (colItems cid))
          (fun cid2 hcid2 => hall cid2 (by simp [List.filterMap_cons, hc, hcid2]))
        simp only [pure, except_pure_bind] at hrec ⊢
        rw [hrec]
        simp [List.filterMap_cons, hc, List.flatMap_cons, seenAcc_append,
          firstSeenFrom_append, List.append_assoc]
  refine ⟨?_, (firstSeenFrom_nodup _ []).1⟩
  simp only [list_scores, h1, except_ok_bind, h2]
  rw [addScores_eq]
  simp only [List.nil_append]
  have hloop := loop cols (seenAcc [] rootItems) (firstSeenFrom [] rootItems) h3
  simp only [pure, except_pure_bind] at hloop ⊢
  rw [hloop]
  simp [firstSeenFrom_append, seenAcc_append]
  rfl

/-- Claim C6, witnessed at `c6disc`: score `b` appears in both the
root listing and collection `c1` but once in the result, at its
first-seen position; the order is `a, b, d`. -/
theorem C6_witness :
    list_scores c6disc 2 =
      .ok (firstSeenFrom []
        ([⟨"a", some "A"⟩, ⟨"b", none⟩] ++
          (([some "c1", none, some ""].filterMap truthyId).flatMap c6colItems))) ∧
    ((firstSeenFrom []
        ([⟨"a", some "A"⟩, ⟨"b", none⟩] ++
          (([some "c1", none, some ""].filterMap truthyId).flatMap c6colItems))).map
      (fun s => s.id)).Nodup :=
  C6_dedup_discovery_order c6disc 2 [⟨"a", some "A"⟩, ⟨"b", none⟩]
    [some "c1", none, some ""] c6colItems (by rfl) (by rfl)
    (by
      intro cid hcid
      simp [truthyId] at hcid
      subst hcid
      rfl)

/-! ## Claim C2: the failure-aggregation scenario -/

/-- A url-mode response with an empty content type sends `fetch`
straight to the direct-bytes tier. -/
theorem fetch_nonjson (env : ExportEnv) (url dest : String) (fs : FS)
    (h : (env.urlMode url).contentType = "") :
    fetch env url dest fs =
      (if (env.direct url).status < 400
       then (true, fsWrite fs dest (env.direct url).content, 2)
       else (false, fs, 2)) := by
  have hct : ¬ (env.urlMode url).contentType.startsWith "application/json" := by
    rw [h]
    decide
  simp [fetch, hct]

/-- A single-revision listing resolves to that revision. -/
theorem latest_rev_single (revResp : String → RevResponse) (sid rid : String)
    (d : Option String) (h : revResp sid = ⟨200, [⟨rid, d⟩]⟩) :
    latest_rev revResp sid = .ok rid := by
  simp [latest_rev, h, latest_rev_pure, sortRevs, insertRev]

/-- An empty revision listing raises the no-revisions error. -/
theorem latest_rev_empty (revResp : String → RevResponse) (sid : String)
    (h : revResp sid = ⟨200, []⟩) :
    latest_rev revResp sid = .error (.runtimeError "No revisions") := by
  simp [latest_rev, h, latest_rev_pure]

/-- One format step through the direct tier: recognized extension,
destination absent, url-mode response plain — the outcome follows the
direct-tier status. -/
theorem stepFormat_direct (env : ExportEnv) (title sid rev fmt ext : String)
    (st : FmtState) (hext : EXT fmt = some ext)
    (hmiss : st.fs (destPath title sid ext) = none)
    (hct : (env.urlMode (exportUrl sid rev (apiFmt fmt))).contentType = "") :
    stepFormat env title sid rev fmt st =
      if (env.direct (exportUrl sid rev (apiFmt fmt))).status < 400 then
        .ok { st with fs := fsWrite st.fs (destPath title sid ext)
                              (env.direct (exportUrl sid rev (apiFmt fmt))).content,
                      saved := st.saved ++ [destPath title sid ext],
                      calls := st.calls + 2 }
      else
        .ok { st with failures := st.failures ++
                        [⟨title, sid, fmt, "400/404 or unsupported"⟩],
                      calls := st.calls + 2 } := by
  unfold stepFormat
  rw [hext]
  dsimp only
  rw [if_neg (by simp [hmiss])]
  rw [fetch_nonjson env _ _ _ hct]
  by_cases hok : (env.direct (exportUrl sid rev (apiFmt fmt))).status < 400
  · simp [hok]
  · simp [hok]

/-- A resource with a resolved revision and one requested format is
processed by the single format step and then recorded in the
manifest. -/
theorem processScore_one_fmt (revResp : String → RevResponse) (env : ExportEnv)
    (fmt : String) (sc : Score) (st : RunState) (rid : String) (st1 : FmtState)
    (hlr : latest_rev revResp sc.id = .ok rid)
    (hsf : stepFormat env (sanitize sc.title) sc.id rid fmt
            ⟨st.fs, [], st.failures, st.calls + 1⟩ = .ok st1) :
    processScore revResp env [fmt] sc st =
      .ok ⟨st1.fs, st.manifest ++ [⟨sc.id, sc.title, st1.saved⟩], st1.failures,
           st1.calls⟩ := by
  simp only [processScore, hlr, List.foldlM_cons, List.foldlM_nil, hsf, except_ok_bind]
  rfl

/-- A resource whose revision resolution fails is recorded in the
ledger with a `revisions:` reason and skipped. -/
theorem processScore_noRev (revResp : String → RevResponse) (env : ExportEnv)
    (fmts : List String) (sc : Score) (st : RunState) (e : PyErr)
    (hlr : latest_rev revResp sc.id = .error e) :
    processScore revResp env fmts sc st =
      .ok { st with
            failures := st.failures ++
              [⟨sanitize sc.title, sc.id, "*", "revisions: " ++ pyMsg e⟩],
            calls := st.calls + 1 } := by
  simp only [processScore, hlr]

/-- Discovery over a nonempty root-only listing returns the dedup
fold of the root page. -/
theorem list_scores_rootOnly (scores : List Score) (fuel : Nat) (hfuel : 2 ≤ fuel)
    (hne : scores ≠ []) :
    list_scores (rootOnlyDisc scores) fuel = .ok (addScores ([], []) scores).2 := by
  have hroot : pagedE (rootOnlyDisc scores).rootPages fuel = .ok scores := by
    have h := pagedFrom_full (rootOnlyDisc scores).rootPages 1 1 fuel (by omega)
      (fun i h1 h2 => by
        have hi : i = 1 := by omega
        subst hi
        exact ⟨by simp [rootOnlyDisc], by simpa [rootOnlyDisc] using hne⟩)
      (by simp [rootOnlyDisc]) (by simp [rootOnlyDisc])
    simp only [pagedE, paged, h]
    simp [rootOnlyDisc, List.range']
  have hcols : pagedE (rootOnlyDisc scores).colPages fuel = .ok ([] : List (Option String)) := by
    obtain ⟨f, rfl⟩ : ∃ f, fuel = f + 1 := ⟨fuel - 1, by omega⟩
    simp [pagedE, paged, pagedFrom, rootOnlyDisc]
  simp only [list_scores, hroot, except_ok_bind, hcols, List.foldlM_nil]
  rfl

/-- Claim C2 (amended): for a run over three discovered resources
`A, B, C` where `B` has no revisions and the only requested format of
`C` is answered with HTTP 404 on both transfer tiers, the manifest
holds entries for `A` and for `C` — the files of `C` omitting the
failed format — and no entry for `B`, and the ledger holds exactly the
rows `(B, "*", "revisions: No revisions")` and
`(C, pdf, "400/404 or unsupported")`.  The 404 is recorded through the
`False` return of `fetch`, not as an `HTTP 404` reason: `fetch` never
raises `requests.HTTPError`, so the handler producing `"HTTP ..."`
reasons at line 119 is unreachable. -/
theorem C2_failure_aggregation (idA idB idC tA tB tC revA revC : String)
    (rev : String → RevResponse) (dResp : String → BytesResp)
    (hAB : idB ≠ idA) (hAC : idC ≠ idA) (hBC : idC ≠ idB)
    (hrA : rev idA = ⟨200, [⟨revA, some "2024-01-01"⟩]⟩)
    (hrB : rev idB = ⟨200, []⟩)
    (hrC : rev idC = ⟨200, [⟨revC, some "2024-01-02"⟩]⟩)
    (hdA : dResp (exportUrl idA revA "pdf") = ⟨200, [7]⟩)
    (hdC : dResp (exportUrl idC revC "pdf") = ⟨404, []⟩)
    (hdest : destPath (sanitize (some tC)) idC "pdf" ≠
             destPath (sanitize (some tA)) idA "pdf") :
    mainRun (c2Env [⟨idA, some tA⟩, ⟨idB, some tB⟩, ⟨idC, some tC⟩] rev dResp)
        ["pdf"] 2 (fun _ => none) =
      .ok ⟨[⟨idA, some tA, [destPath (sanitize (some tA)) idA "pdf"]⟩,
            ⟨idC, some tC, []⟩],
           [⟨sanitize (some tB), idB, "*", "revisions: No revisions"⟩,
            ⟨sanitize (some tC), idC, "pdf", "400/404 or unsupported"⟩]⟩ := by
  have hls : list_scores (c2Env [⟨idA, some tA⟩, ⟨idB, some tB⟩, ⟨idC, some tC⟩]
      rev dResp).disc 2 =
      .ok [⟨idA, some tA⟩, ⟨idB, some tB⟩, ⟨idC, some tC⟩] := by
    rw [show (c2Env [⟨idA, some tA⟩, ⟨idB, some tB⟩, ⟨idC, some tC⟩] rev dResp).disc =
      rootOnlyDisc [⟨idA, some tA⟩, ⟨idB, some tB⟩, ⟨idC, some tC⟩] from rfl]
    rw [list_scores_rootOnly _ 2 (by omega) (by simp)]
    simp [addScores, addNew, hAB, hAC, hBC]
  have hA : processScore rev ⟨fun _ => ⟨"", none⟩, fun _ => ⟨404, []⟩, dResp⟩ ["pdf"]
      ⟨idA, some tA⟩ ⟨fun _ => none, [], [], 0⟩ =
      .ok ⟨fsWrite (fun _ => none) (destPath (sanitize (some tA)) idA "pdf") [7],
           [⟨idA, some tA, [destPath (sanitize (some tA)) idA "pdf"]⟩], [], 3⟩ := by
    have hsf := stepFormat_direct ⟨fun _ => ⟨"", none⟩, fun _ => ⟨404, []⟩, dResp⟩
      (sanitize (some tA)) idA revA "pdf" "pdf" ⟨fun _ => none, [], [], 1⟩
      (by rfl) (by rfl) (by rfl)
    rw [show apiFmt "pdf" = "pdf" from rfl] at hsf
    simp only [hdA] at hsf
    rw [if_pos (by decide)] at hsf
    have h := processScore_one_fmt rev ⟨fun _ => ⟨"", none⟩, fun _ => ⟨404, []⟩, dResp⟩
      "pdf" ⟨idA, some tA⟩ ⟨fun _ => none, [], [], 0⟩ revA _
      (latest_rev_single rev idA revA (some "2024-01-01") hrA) hsf
    simpa using h
  have hB : processScore rev ⟨fun _ => ⟨"", none⟩, fun _ => ⟨404, []⟩, dResp⟩ ["pdf"]
      ⟨idB, some tB⟩
      ⟨fsWrite (fun _ => none) (destPath (sanitize (some tA)) idA "pdf") [7],
       [⟨idA, some tA, [destPath (sanitize (some tA)) idA "pdf"]⟩], [], 3⟩ =
      .ok ⟨fsWrite (fun _ => none) (destPath (sanitize (some tA)) idA "pdf") [7],
           [⟨idA, some tA, [destPath (sanitize (some tA)) idA "pdf"]⟩],
           [⟨sanitize (some tB), idB, "*", "revisions: No revisions"⟩], 4⟩ := by
    have h := processScore_noRev rev ⟨fun _ => ⟨"", none⟩, fun _ => ⟨404, []⟩, dResp⟩
      ["pdf"] ⟨idB, some tB⟩
      ⟨fsWrite (fun _ => none) (destPath (sanitize (some tA)) idA "pdf") [7],
       [⟨idA, some tA, [destPath (sanitize (some tA)) idA "pdf"]⟩], [], 3⟩ _
      (latest_rev_empty rev idB hrB)
    simpa [pyMsg] using h
  have hC : processScore rev ⟨fun _ => ⟨"", none⟩, fun _ => ⟨404, []⟩, dResp⟩ ["pdf"]
      ⟨idC, some tC⟩
      ⟨fsWrite (fun _ => none) (destPath (sanitize (some tA)) idA "pdf") [7],
       [⟨idA, some tA, [destPath (sanitize (some tA)) idA "pdf"]⟩],
       [⟨sanitize (some tB), idB, "*", "revisions: No revisions"⟩], 4⟩ =
      .ok ⟨fsWrite (fun _ => none) (destPath (sanitize (some tA)) idA "pdf") [7],
           [⟨idA, some tA, [destPath (sanitize (some tA)) idA "pdf"]⟩,
            ⟨idC, some tC, []⟩],
           [⟨sanitize (some tB), idB, "*", "revisions: No revisions"⟩,
            ⟨sanitize (some tC), idC, "pdf", "400/404 or unsupported"⟩], 7⟩ := by
    have hsf := stepFormat_direct ⟨fun _ => ⟨"", none⟩, fun _ => ⟨404, []⟩, dResp⟩
      (sanitize (some tC)) idC revC "pdf" "pdf"
      ⟨fsWrite (fun _ => none) (destPath (sanitize (some tA)) idA "pdf") [7], [],
       [⟨sanitize (some tB), idB, "*", "revisions: No revisions"⟩], 5⟩
      (by rfl) (by simp [fsWrite, hdest]) (by rfl)
    rw [show apiFmt "pdf" = "pdf" from rfl] at hsf
    simp only [hdC] at hsf
    rw [if_neg (by decide)] at hsf
    have h := processScore_one_fmt rev ⟨fun _ => ⟨"", none⟩, fun _ => ⟨404, []⟩, dResp⟩
      "pdf" ⟨idC, some tC⟩
      ⟨fsWrite (fun _ => none) (destPath (sanitize (some tA)) idA "pdf") [7],
       [⟨idA, some tA, [destPath (sanitize (some tA)) idA "pdf"]⟩],
       [⟨sanitize (some tB), idB, "*", "revisions: No revisions"⟩], 4⟩ revC _
      (latest_rev_single rev idC revC (some "2024-01-02") hrC) hsf
    simpa using h
  simp only [mainRun, hls, except_ok_bind]
  rw [if_neg (by simp)]
  simp only [runScores, c2Env, List.foldlM_cons, List.foldlM_nil, hA, except_ok_bind,
    hB, hC, except_pure_bind]
  rfl

/-- Claim C2 counterexample: in the concrete scenario the ledger row
of resource `C` carries the reason `400/404 or unsupported` — no row
carries `HTTP 404`, so the failure ledger the claim states does not
occur. -/
theorem C2_counterexample :
    mainRun (c2Env [⟨"idA", some "Alpha"⟩, ⟨"idB", some "Beta"⟩, ⟨"idC", some "Gamma"⟩]
        c2rev c2dResp) ["pdf"] 2 (fun _ => none) =
      .ok ⟨[⟨"idA", some "Alpha", ["out/Alpha__idA.pdf"]⟩, ⟨"idC", some "Gamma", []⟩],
           [⟨"Beta", "idB", "*", "revisions: No revisions"⟩,
            ⟨"Gamma", "idC", "pdf", "400/404 or unsupported"⟩]⟩ ∧
    "HTTP 404" ∉ ([⟨"Beta", "idB", "*", "revisions: No revisions"⟩,
                   ⟨"Gamma", "idC", "pdf", "400/404 or unsupported"⟩] :
        List FailureRow).map (fun r => r.reason) := by
  constructor
  · rfl
  · decide

/-- Claim C2 (amended), witnessed at the concrete scenario. -/
theorem C2_witness :
    mainRun (c2Env [⟨"idA", some "Alpha"⟩, ⟨"idB", some "Beta"⟩, ⟨"idC", some "Gamma"⟩]
        c2rev c2dResp) ["pdf"] 2 (fun _ => none) =
      .ok ⟨[⟨"idA", some "Alpha", [destPath (sanitize (some "Alpha")) "idA" "pdf"]⟩,
            ⟨"idC", some "Gamma", []⟩],
           [⟨sanitize (some "Beta"), "idB", "*", "revisions: No revisions"⟩,
            ⟨sanitize (some "Gamma"), "idC", "pdf", "400/404 or unsupported"⟩]⟩ :=
  C2_failure_aggregation "idA" "idB" "idC" "Alpha" "Beta" "Gamma" "revA" "revC"
    c2rev c2dResp (by decide) (by decide) (by decide)
    (by rfl) (by rfl) (by rfl) (by rfl) (by rfl) (by decide)

end FlatBackup
